import Mathlib

/-!
# Verification of the multichannel Safe transaction hashing core

Shallow embedding of `safe_transaction_service/history/utils.py`: the EIP-712
signing-hash computation for the multichannel Safe variant, the capability
detector `supports_multichannel`, the version fetcher `get_safe_version`, the
domain-separator builder `get_domain_separator` and the nonce resolver
`get_channel_nonce`.

Bytes are modelled as `List Nat` (each element `< 256`), machine integers as
`Nat`/`Int` with explicit bounds checks mirroring the `eth_abi` encoder, and
the RPC client as a record of oracles returning `Except RpcError _`.
`Web3.keccak` is given a full executable Keccak-256 implementation so that
concrete hash values can be evaluated inside proofs.
-/

set_option maxRecDepth 10000

/-! ## Byte-level helpers -/

/-- Big-endian encoding of `v` into exactly `k` bytes (truncating mod `256^k`). -/
def natToBytesBE : Nat → Nat → List Nat
  | 0, _ => []
  | k + 1, v => natToBytesBE k (v / 256) ++ [v % 256]

/-- A 32-byte ABI word (`uint256` big-endian). -/
def word256 (v : Nat) : List Nat := natToBytesBE 32 v

/-- Code points of an ASCII string as bytes (all source strings are ASCII). -/
def strBytes (s : String) : List Nat := s.data.map Char.toNat

/-! ## Keccak-256 (the `Web3.keccak` primitive), executable

Keccak-f[1600] with rate 136 and the original `0x01` multi-rate padding used
by Ethereum. Lanes are `Nat` values kept below `2 ^ 64`; the state is a list
of 25 lanes indexed by `x + 5 * y`. -/

/-- Lane lookup with default 0. -/
def lget (s : List Nat) (i : Nat) : Nat := s.getD i 0

/-- Left-rotation of a 64-bit lane. -/
def rotl64 (x n : Nat) : Nat := ((x <<< n) % 2 ^ 64) ||| (x >>> (64 - n))

/-- ρ rotation offsets, indexed by `x + 5 * y`, generated by the standard
recurrence: from lane (1,0), step `t` assigns offset `(t+1)(t+2)/2 mod 64`
and moves to lane `(y, (2x+3y) mod 5)`. -/
def rhoOffsets : List Nat :=
  ((List.range 24).foldl
    (fun st t =>
      let x := st.1.1
      let y := st.1.2
      ((y, (2 * x + 3 * y) % 5),
        st.2.set (x + 5 * y) ((t + 1) * (t + 2) / 2 % 64)))
    ((1, 0), List.replicate 25 0)).2

/-- Keccak-f[1600] round constants (decimal). -/
def keccakRC : List Nat :=
  [1, 32898, 9223372036854808714,
   9223372039002292224, 32907, 2147483649,
   9223372039002292353, 9223372036854808585, 138,
   136, 2147516425, 2147483658,
   2147516555, 9223372036854775947, 9223372036854808713,
   9223372036854808579, 9223372036854808578, 9223372036854775936,
   32778, 9223372039002259466, 9223372039002292353,
   9223372036854808704, 2147483649, 9223372039002292232]

/-- θ step. -/
def thetaStep (A : List Nat) : List Nat :=
  let C := (List.range 5).map fun x =>
    lget A x ^^^ lget A (x + 5) ^^^ lget A (x + 10) ^^^ lget A (x + 15) ^^^ lget A (x + 20)
  let D := (List.range 5).map fun x =>
    lget C ((x + 4) % 5) ^^^ rotl64 (lget C ((x + 1) % 5)) 1
  (List.range 25).map fun i => lget A i ^^^ lget D (i % 5)

/-- ρ and π steps: `B[y + 5*((2x+3y) % 5)] = rotl(A[x + 5*y], r[x + 5*y])`. -/
def rhoPiStep (A : List Nat) : List Nat :=
  (List.range 25).foldl
    (fun B i =>
      let x := i % 5
      let y := i / 5
      B.set (y + 5 * ((2 * x + 3 * y) % 5)) (rotl64 (lget A i) (lget rhoOffsets i)))
    (List.replicate 25 0)

/-- χ step (lane complement taken inside 64 bits). -/
def chiStep (B : List Nat) : List Nat :=
  (List.range 25).map fun i =>
    let x := i % 5
    let y := i / 5
    lget B i ^^^ ((0xFFFFFFFFFFFFFFFF ^^^ lget B ((x + 1) % 5 + 5 * y)) &&& lget B ((x + 2) % 5 + 5 * y))

/-- ι step. -/
def iotaStep (A : List Nat) (rc : Nat) : List Nat := A.set 0 (lget A 0 ^^^ rc)

/-- One full Keccak round. -/
def keccakRound (A : List Nat) (rc : Nat) : List Nat := iotaStep (chiStep (rhoPiStep (thetaStep A))) rc

/-- The 24-round Keccak-f[1600] permutation. -/
def keccakF (A : List Nat) : List Nat := keccakRC.foldl keccakRound A

/-- Multi-rate padding with domain byte `0x01` (Ethereum Keccak), rate 136. -/
def padKeccak (m : List Nat) : List Nat :=
  let padLen := 136 - m.length % 136
  if padLen = 1 then m ++ [0x81]
  else m ++ [0x01] ++ List.replicate (padLen - 2) 0 ++ [0x80]

/-- Assemble 8 little-endian bytes into one lane. -/
def bytesToLaneLE (bs : List Nat) : Nat := bs.foldr (fun b acc => acc * 256 + b) 0

/-- XOR one 136-byte block into the first 17 lanes and permute. -/
def absorbBlock (A : List Nat) (block : List Nat) : List Nat :=
  let lanes := (List.range 17).map fun i => bytesToLaneLE ((block.drop (8 * i)).take 8)
  keccakF ((List.range 25).map fun i => if i < 17 then lget A i ^^^ lget lanes i else lget A i)

/-- Absorb `nblocks` consecutive 136-byte blocks of `l`. -/
def keccakAbsorb (A : List Nat) (l : List Nat) : Nat → List Nat
  | 0 => A
  | n + 1 => keccakAbsorb (absorbBlock A (l.take 136)) (l.drop 136) n

/-- Little-endian bytes of one lane. -/
def laneToBytesLE (v : Nat) : List Nat := (List.range 8).map fun i => (v >>> (8 * i)) % 256

/-- Keccak-256 of a byte sequence: pad, absorb, squeeze the first 32 bytes. -/
def keccak (m : List Nat) : List Nat :=
  let p := padKeccak m
  let A := keccakAbsorb (List.replicate 25 0) p (p.length / 136)
  ((List.range 4).map fun i => laneToBytesLE (lget A i)).flatten

/-- Sanity pin: `keccak256(b"")` matches the well-known Ethereum value
`c5d2460186f7233c927e7db2dcc703c0e500b653ca82273b7bfad8045d85a470`. -/
theorem keccak_nil_golden :
    keccak [] =
      [0xc5, 0xd2, 0x46, 0x01, 0x86, 0xf7, 0x23, 0x3c, 0x92, 0x7e, 0x7d, 0xb2,
       0xdc, 0xc7, 0x03, 0xc0, 0xe5, 0x00, 0xb6, 0x53, 0xca, 0x82, 0x27, 0x3b,
       0x7b, 0xfa, 0xd8, 0x04, 0x5d, 0x85, 0xa4, 0x70] := by
  decide

/-! ## ABI encoding (the `eth_abi.encode` primitive)

The source calls `eth_abi.encode` with a literal type list. Each value is
validated against its declared type before encoding; an out-of-range or
malformed value raises, modelled by `Except EncodeError`. -/

/-- The single error kind of the encoder; the spec taxonomy calls every
encoding failure `InvalidParameter`. -/
inductive EncodeError where
  | invalidParameter
deriving DecidableEq

/-- A typed ABI value as passed to `eth_abi.encode`. Integer payloads are
`Int` so that negative caller input is representable; addresses are the
20-byte numeric value of the checksum address string. -/
inductive AbiValue where
  | uint256 (v : Int)
  | uint8 (v : Int)
  | address (a : Nat)
  | bytes32 (b : List Nat)
deriving DecidableEq

/-- Validate-and-encode one ABI value into its 32-byte head word. -/
def encodeAbiValue : AbiValue → Except EncodeError (List Nat)
  | .uint256 v =>
      if 0 ≤ v ∧ v < 2 ^ 256 then .ok (word256 v.toNat) else .error .invalidParameter
  | .uint8 v =>
      if 0 ≤ v ∧ v < 2 ^ 8 then .ok (word256 v.toNat) else .error .invalidParameter
  | .address a =>
      if a < 2 ^ 160 then .ok (word256 a) else .error .invalidParameter
  | .bytes32 b =>
      if b.length = 32 then .ok b else .error .invalidParameter

/-- `eth_abi.encode` on a tuple of static values: concatenation of the
per-value words, failing on the first invalid value. -/
def encode_abi : List AbiValue → Except EncodeError (List Nat)
  | [] => .ok []
  | v :: vs =>
    match encodeAbiValue v, encode_abi vs with
    | .ok h, .ok t => .ok (h ++ t)
    | .error e, _ => .error e
    | .ok _, .error e => .error e

/-! ## The RPC client model

`EthereumClient` packages the oracles the source consults: the chain id and
the three contract calls `VERSION()`, `channelNonces(uint256)` and `nonce()`.
Each call either returns a value or fails with one of the spec's RPC error
kinds. -/

/-- RPC failure kinds from the spec's error taxonomy. -/
inductive RpcError where
  | functionNotFound
  | timeout
  | connectionFailed
  | decodeFailed
deriving DecidableEq

/-- One observable outgoing contract call, for call-trace statements. -/
inductive RpcCall where
  | channelNoncesCall (channel : Int)
  | nonceCall
  | versionCall
deriving DecidableEq

/-- The injected RPC collaborator: chain id plus the three contract calls the
source performs. -/
structure EthereumClient where
  get_chain_id : Nat
  channelNonces : Int → Except RpcError Nat
  nonce : Except RpcError Nat
  VERSION : Except RpcError String

/-! ## Source embeddings (`safe_transaction_service/history/utils.py`) -/

/-- `SAFE_TX_TYPEHASH_V1_4_1`: module-level constant of utils.py. -/
def SAFE_TX_TYPEHASH_V1_4_1 : List Nat :=
  keccak (strBytes
    ("SafeTx(address to,uint256 value,bytes data,uint8 operation," ++
     "uint256 safeTxGas,uint256 baseGas,uint256 gasPrice," ++
     "address gasToken,address refundReceiver,uint256 nonce)"))

/-- `SAFE_TX_TYPEHASH_MULTICHANNEL`: module-level constant of utils.py. -/
def SAFE_TX_TYPEHASH_MULTICHANNEL : List Nat :=
  keccak (strBytes
    ("SafeTx(uint256 channel,address to,uint256 value,bytes data," ++
     "uint8 operation,uint256 safeTxGas,uint256 baseGas," ++
     "uint256 gasPrice,address gasToken,address refundReceiver," ++
     "uint256 nonce)"))

/-- `get_safe_version`: calls `VERSION()` and returns the string, converting
every exception into `none` (the `except Exception: return None` of the
source). -/
def get_safe_version (ethereum_client : EthereumClient) : Option String :=
  match ethereum_client.VERSION with
  | .ok version => some version
  | .error _ => none

/-- Python's lowercase conversion, at the character-list level (inputs are
ASCII version strings). -/
def lowerChars (s : String) : List Char := s.data.map Char.toLower

/-- `p` is a leading block of `s` (model of Python `startswith`, used to
define the `in` operator). -/
def startsWithL : List Char → List Char → Bool
  | [], _ => true
  | _ :: _, [] => false
  | p :: ps, c :: cs => p == c && startsWithL ps cs

/-- Python's `pat in s` substring operator on character lists. -/
def containsL (pat : List Char) : List Char → Bool
  | [] => startsWithL pat []
  | c :: cs => startsWithL pat (c :: cs) || containsL pat cs

/-- `supports_multichannel`: `False` on falsy input (absent or empty
version), else `"multichannel" in version.lower()`. -/
def supports_multichannel : Option String → Bool
  | none => false
  | some version =>
      if version = "" then false
      else containsL "multichannel".data (lowerChars version)

/-- `get_domain_separator`: keccak of the ABI-encoded
`(domain typehash, chain id, safe address)` tuple. The typehash is computed
from the literal domain string inside the function, as in the source. -/
def get_domain_separator (ethereum_client : EthereumClient) (safe_address : Nat) :
    Except EncodeError (List Nat) :=
  let domain_separator_typehash :=
    keccak (strBytes "EIP712Domain(uint256 chainId,address verifyingContract)")
  let chain_id := ethereum_client.get_chain_id
  (encode_abi
      [.bytes32 domain_separator_typehash, .uint256 (chain_id : Int),
       .address safe_address]).bind
    fun encoded => .ok (keccak encoded)

/-- `calculate_safe_tx_hash_multichannel`: struct hash of the 12-field tuple
under the multichannel typehash, then the EIP-712 combination
`keccak(0x19 ++ 0x01 ++ domain_separator ++ struct_hash)`. The `data` field
enters only as `Web3.keccak(data) if data else Web3.keccak(b"")`. -/
def calculate_safe_tx_hash_multichannel (ethereum_client : EthereumClient)
    (safe_address : Nat) (channel : Int) (to_addr : Nat) (value : Int)
    (data : List Nat) (operation : Int) (safe_tx_gas : Int) (base_gas : Int)
    (gas_price : Int) (gas_token : Nat) (refund_receiver : Nat) (nonce : Int) :
    Except EncodeError (List Nat) :=
  (encode_abi
      [.bytes32 SAFE_TX_TYPEHASH_MULTICHANNEL,
       .uint256 channel,
       .address to_addr,
       .uint256 value,
       .bytes32 (if data = [] then keccak [] else keccak data),
       .uint8 operation,
       .uint256 safe_tx_gas,
       .uint256 base_gas,
       .uint256 gas_price,
       .address gas_token,
       .address refund_receiver,
       .uint256 nonce]).bind fun encoded =>
    let data_hash := keccak encoded
    (get_domain_separator ethereum_client safe_address).bind fun domain_separator =>
      .ok (keccak ([0x19, 0x01] ++ domain_separator ++ data_hash))

/-- `get_channel_nonce`: try `channelNonces(channel)`; on ANY exception fall
back to `nonce()` when `channel == 0` (propagating that call's own outcome)
and to `0` otherwise. The second component records the outgoing contract
calls in order, for call-count statements. -/
def get_channel_nonce (ethereum_client : EthereumClient) (channel : Int) :
    Except RpcError Nat × List RpcCall :=
  match ethereum_client.channelNonces channel with
  | .ok nonce => (.ok nonce, [.channelNoncesCall channel])
  | .error _ =>
    if channel = 0 then
      (ethereum_client.nonce, [.channelNoncesCall channel, .nonceCall])
    else
      (.ok 0, [.channelNoncesCall channel])

/-! ## Spec-side definitions

These follow the words of the specification (sections 4.2 and 4.3): fixed
32-byte words concatenated in the stated order, to be compared with the
source embeddings above. -/

/-- Modelled from the spec: `domain_separator(chainId, walletAddress)` =
`hash(typehash_domain ++ abi_encode(chainId, walletAddress))` with the
`uint256` as a big-endian 32-byte word and the address right-aligned in a
32-byte word. -/
def specDomainSeparator (chainId addr : Nat) : List Nat :=
  keccak (keccak (strBytes "EIP712Domain(uint256 chainId,address verifyingContract)") ++
    word256 chainId ++ word256 addr)

/-- Modelled from the spec: `structHash` = `hash(typehash_multichannel ++
abi_encode(channel, to, value, dataHash, operation, safeTxGas, baseGas,
gasPrice, gasToken, refundReceiver, nonce))`, fixed 32-byte words in that
exact order. -/
def specStructHash (channel to_addr value : Nat) (dataHash : List Nat)
    (operation safeTxGas baseGas gasPrice gasToken refundReceiver nonce : Nat) :
    List Nat :=
  keccak (SAFE_TX_TYPEHASH_MULTICHANNEL ++ word256 channel ++ word256 to_addr ++
    word256 value ++ dataHash ++ word256 operation ++ word256 safeTxGas ++
    word256 baseGas ++ word256 gasPrice ++ word256 gasToken ++
    word256 refundReceiver ++ word256 nonce)

/-- Modelled from the spec: the final signing hash
`hash(0x19 ++ 0x01 ++ separator ++ structHash)` with
`dataHash = hash(params.data)`. -/
def specSigningHash (chainId addr channel to_addr value : Nat) (data : List Nat)
    (operation safeTxGas baseGas gasPrice gasToken refundReceiver nonce : Nat) :
    List Nat :=
  keccak ([0x19, 0x01] ++ specDomainSeparator chainId addr ++
    specStructHash channel to_addr value (keccak data) operation safeTxGas
      baseGas gasPrice gasToken refundReceiver nonce)

/-! ## Helper lemmas -/

theorem laneToBytesLE_length (v : Nat) : (laneToBytesLE v).length = 8 := by
  simp [laneToBytesLE]

/-- Keccak-256 always squeezes exactly 32 bytes. -/
theorem keccak_length (m : List Nat) : (keccak m).length = 32 := by
  simp only [keccak, List.length_flatten, List.map_map, Function.comp_def,
    laneToBytesLE_length]
  decide

theorem encode_uint256_ok {v : Int} (h0 : 0 ≤ v) (h1 : v < 2 ^ 256) :
    encodeAbiValue (.uint256 v) = .ok (word256 v.toNat) := by
  simp only [encodeAbiValue]
  exact if_pos ⟨h0, h1⟩

theorem encode_uint8_ok {v : Int} (h0 : 0 ≤ v) (h1 : v < 2 ^ 8) :
    encodeAbiValue (.uint8 v) = .ok (word256 v.toNat) := by
  simp only [encodeAbiValue]
  exact if_pos ⟨h0, h1⟩

theorem encode_address_ok {a : Nat} (h : a < 2 ^ 160) :
    encodeAbiValue (.address a) = .ok (word256 a) := by
  simp only [encodeAbiValue]
  exact if_pos h

theorem encode_bytes32_ok {b : List Nat} (h : b.length = 32) :
    encodeAbiValue (.bytes32 b) = .ok b := by
  simp only [encodeAbiValue]
  exact if_pos h

/-- Out-of-range `uint256` input makes the encoder fail. -/
theorem encode_uint256_bad {v : Int} (h : ¬(0 ≤ v ∧ v < 2 ^ 256)) :
    encodeAbiValue (.uint256 v) = .error .invalidParameter := by
  simp only [encodeAbiValue]
  exact if_neg h

/-- Out-of-range `uint8` input makes the encoder fail. -/
theorem encode_uint8_bad {v : Int} (h : ¬(0 ≤ v ∧ v < 2 ^ 8)) :
    encodeAbiValue (.uint8 v) = .error .invalidParameter := by
  simp only [encodeAbiValue]
  exact if_neg h

/-- A successful tuple encoding means every element encoded successfully. -/
theorem encode_abi_ok_elem {vs : List AbiValue} {bs : List Nat}
    (h : encode_abi vs = .ok bs) : ∀ v ∈ vs, ∃ b, encodeAbiValue v = .ok b := by
  induction vs generalizing bs with
  | nil => simp
  | cons w ws ih =>
    intro v hv
    cases hw : encodeAbiValue w with
    | error e => rw [encode_abi, hw] at h; exact absurd h (by simp)
    | ok hb =>
      cases hws : encode_abi ws with
      | error e => rw [encode_abi, hw, hws] at h; exact absurd h (by simp)
      | ok t =>
        rcases List.mem_cons.mp hv with rfl | hmem
        · exact ⟨hb, hw⟩
        · exact ih hws v hmem

/-- One failing element makes the whole tuple encoding fail. -/
theorem encode_abi_mem_error {vs : List AbiValue} {v : AbiValue}
    (hv : v ∈ vs) (he : encodeAbiValue v = .error .invalidParameter) :
    encode_abi vs = .error .invalidParameter := by
  induction vs with
  | nil => simp at hv
  | cons w ws ih =>
    rcases List.mem_cons.mp hv with rfl | hmem
    · cases hws : encode_abi ws <;> rw [encode_abi, he, hws]
    · cases hw : encodeAbiValue w with
      | error e => cases e; rw [encode_abi, hw, ih hmem]
      | ok hb => rw [encode_abi, hw, ih hmem]

/-- The conditional hash of the `data` field always equals `keccak data`. -/
theorem keccak_data_if (data : List Nat) :
    (if data = [] then keccak [] else keccak data) = keccak data := by
  by_cases h : data = [] <;> simp [h]

/-- Splitting a big-endian byte encoding at a byte boundary. -/
theorem natToBytesBE_add (a b v : Nat) :
    natToBytesBE (a + b) v =
      natToBytesBE a (v / 256 ^ b) ++ natToBytesBE b (v % 256 ^ b) := by
  induction b generalizing v with
  | zero => simp [natToBytesBE]
  | succ b ih =>
    have hdd : v / 256 / 256 ^ b = v / 256 ^ (b + 1) := by
      rw [Nat.div_div_eq_div_mul, pow_succ, mul_comm]
    have hmd : v % 256 ^ (b + 1) / 256 = v / 256 % 256 ^ b := by
      rw [pow_succ, mul_comm]
      exact Nat.mod_mul_right_div_self v 256 (256 ^ b)
    have hmm : v % 256 ^ (b + 1) % 256 = v % 256 :=
      Nat.mod_mod_of_dvd v (dvd_pow_self 256 (Nat.succ_ne_zero b))
    show natToBytesBE (a + b) (v / 256) ++ [v % 256] = _
    rw [ih (v / 256), hdd]
    rw [natToBytesBE, hmd, hmm, List.append_assoc]

/-- A 20-byte address sits right-aligned in its ABI word: 12 zero bytes then
the 20 address bytes. -/
theorem word256_address_split {a : Nat} (h : a < 2 ^ 160) :
    word256 a = List.replicate 12 0 ++ natToBytesBE 20 a := by
  have h20 : (256 : Nat) ^ 20 = 2 ^ 160 := by norm_num
  have hsplit := natToBytesBE_add 12 20 a
  rw [word256]
  show natToBytesBE (12 + 20) a = _
  rw [hsplit, Nat.div_eq_of_lt (h20 ▸ h), Nat.mod_eq_of_lt (h20 ▸ h)]
  rfl

/-- Propagation equations for `Except.bind` (exception sequencing). -/
theorem except_bind_ok {e : Type} {a b : Type} (x : a) (f : a → Except e b) :
    (Except.ok x).bind f = f x := rfl

theorem except_bind_error {e : Type} {a b : Type} (err : e) (f : a → Except e b) :
    (Except.error err : Except e a).bind f = .error err := rfl

/-- Cons step for successful tuple encodings. -/
theorem encode_abi_cons_ok {v : AbiValue} {vs : List AbiValue} {h t : List Nat}
    (hv : encodeAbiValue v = .ok h) (hvs : encode_abi vs = .ok t) :
    encode_abi (v :: vs) = .ok (h ++ t) := by
  rw [encode_abi, hv, hvs]


/-- The source hash computation refines the spec's byte layout: for in-range
parameters it returns exactly the spec's signing hash. -/
theorem calculate_eq_spec (ethereum_client : EthereumClient) (safe_address : Nat)
    (channel : Int) (to_addr : Nat) (value : Int) (data : List Nat)
    (operation safe_tx_gas base_gas gas_price : Int)
    (gas_token refund_receiver : Nat) (nonce : Int)
    (hch0 : 0 ≤ channel) (hch1 : channel < 2 ^ 256)
    (hto : to_addr < 2 ^ 160)
    (hv0 : 0 ≤ value) (hv1 : value < 2 ^ 256)
    (hop0 : 0 ≤ operation) (hop1 : operation < 2 ^ 8)
    (hstg0 : 0 ≤ safe_tx_gas) (hstg1 : safe_tx_gas < 2 ^ 256)
    (hbg0 : 0 ≤ base_gas) (hbg1 : base_gas < 2 ^ 256)
    (hgp0 : 0 ≤ gas_price) (hgp1 : gas_price < 2 ^ 256)
    (hgt : gas_token < 2 ^ 160) (hrr : refund_receiver < 2 ^ 160)
    (hn0 : 0 ≤ nonce) (hn1 : nonce < 2 ^ 256)
    (hcid : ethereum_client.get_chain_id < 2 ^ 256)
    (haddr : safe_address < 2 ^ 160) :
    calculate_safe_tx_hash_multichannel ethereum_client safe_address channel
        to_addr value data operation safe_tx_gas base_gas gas_price gas_token
        refund_receiver nonce =
      .ok (specSigningHash ethereum_client.get_chain_id safe_address
        channel.toNat to_addr value.toNat data operation.toNat safe_tx_gas.toNat
        base_gas.toNat gas_price.toNat gas_token refund_receiver nonce.toNat) := by
  have htype : SAFE_TX_TYPEHASH_MULTICHANNEL.length = 32 := keccak_length _
  have hdomth :
      (keccak (strBytes "EIP712Domain(uint256 chainId,address verifyingContract)")).length = 32 :=
    keccak_length _
  have hdh : (if data = [] then keccak [] else keccak data).length = 32 := by
    rw [keccak_data_if]; exact keccak_length data
  have hcid1 : ((ethereum_client.get_chain_id : Int)) < 2 ^ 256 := by exact_mod_cast hcid
  have henc := encode_abi_cons_ok (encode_bytes32_ok htype)
    (encode_abi_cons_ok (encode_uint256_ok hch0 hch1)
    (encode_abi_cons_ok (encode_address_ok hto)
    (encode_abi_cons_ok (encode_uint256_ok hv0 hv1)
    (encode_abi_cons_ok (encode_bytes32_ok hdh)
    (encode_abi_cons_ok (encode_uint8_ok hop0 hop1)
    (encode_abi_cons_ok (encode_uint256_ok hstg0 hstg1)
    (encode_abi_cons_ok (encode_uint256_ok hbg0 hbg1)
    (encode_abi_cons_ok (encode_uint256_ok hgp0 hgp1)
    (encode_abi_cons_ok (encode_address_ok hgt)
    (encode_abi_cons_ok (encode_address_ok hrr)
    (encode_abi_cons_ok (encode_uint256_ok hn0 hn1)
    (rfl : encode_abi [] = .ok []))))))))))))
  have hdomenc := encode_abi_cons_ok (encode_bytes32_ok hdomth)
    (encode_abi_cons_ok (encode_uint256_ok (Int.natCast_nonneg _) hcid1)
    (encode_abi_cons_ok (encode_address_ok haddr)
    (rfl : encode_abi [] = .ok [])))
  unfold calculate_safe_tx_hash_multichannel get_domain_separator
  rw [henc, except_bind_ok]
  simp only [hdomenc, except_bind_ok, keccak_data_if, specSigningHash,
    specDomainSeparator, specStructHash, Int.toNat_natCast, List.append_assoc,
    List.append_nil, List.cons_append, List.nil_append]

/-- `startsWithL` correctness: a successful check means `p` is a leading
block of `s`. -/
theorem startsWithL_iff (p : List Char) :
    ∀ s, startsWithL p s = true ↔ ∃ r, s = p ++ r := by
  induction p with
  | nil => intro s; simp [startsWithL]
  | cons a p ih =>
    intro s
    cases s with
    | nil => simp [startsWithL]
    | cons c cs =>
      simp only [startsWithL, Bool.and_eq_true, beq_iff_eq, ih, List.cons_append,
        List.cons.injEq]
      constructor
      · rintro ⟨rfl, r, rfl⟩; exact ⟨r, rfl, rfl⟩
      · rintro ⟨r, rfl, h⟩; exact ⟨rfl, r, h⟩

/-- `containsL` correctness: a successful check means `pat` occurs as a
contiguous substring. -/
theorem containsL_iff (pat : List Char) (hp : pat ≠ []) :
    ∀ s, containsL pat s = true ↔ ∃ l r, s = l ++ pat ++ r := by
  intro s
  induction s with
  | nil =>
    rw [containsL]
    constructor
    · intro h
      cases pat with
      | nil => exact absurd rfl hp
      | cons a p => exact absurd h (by simp [startsWithL])
    · rintro ⟨l, r, h⟩
      cases pat with
      | nil => exact absurd rfl hp
      | cons a p => cases l <;> simp at h
  | cons c cs ih =>
    rw [containsL]
    simp only [Bool.or_eq_true, startsWithL_iff, ih]
    constructor
    · rintro (⟨r, hr⟩ | ⟨l, r, hl⟩)
      · exact ⟨[], r, by simpa using hr⟩
      · exact ⟨c :: l, r, by simp [hl]⟩
    · rintro ⟨l, r, h⟩
      cases l with
      | nil => exact Or.inl ⟨r, by simpa using h⟩
      | cons x xs =>
        right
        injection h with h1 h2
        exact ⟨xs, r, h2⟩

/-- The capability detector is exactly the substring check on the lowered
version string, also for the empty string. -/
theorem supports_eq_containsL (v : String) :
    supports_multichannel (some v) =
      containsL "multichannel".data (lowerChars v) := by
  rw [supports_multichannel]
  by_cases h : v = ""
  · subst h; decide
  · rw [if_neg h]

/-- A successful `uint256` encoding certifies the 256-bit range. -/
theorem uint256_ok_range {v : Int} (h : ∃ b, encodeAbiValue (.uint256 v) = .ok b) :
    0 ≤ v ∧ v < 2 ^ 256 := by
  by_cases hc : 0 ≤ v ∧ v < 2 ^ 256
  · exact hc
  · rcases h with ⟨b, hb⟩
    rw [encode_uint256_bad hc] at hb
    exact absurd hb (by simp)

/-- A successful `uint8` encoding certifies the 8-bit range. -/
theorem uint8_ok_range {v : Int} (h : ∃ b, encodeAbiValue (.uint8 v) = .ok b) :
    0 ≤ v ∧ v < 2 ^ 8 := by
  by_cases hc : 0 ≤ v ∧ v < 2 ^ 8
  · exact hc
  · rcases h with ⟨b, hb⟩
    rw [encode_uint8_bad hc] at hb
    exact absurd hb (by simp)

/-- The integer-field contract of the claim: every integer parameter of the
transaction is a non-negative value within its declared bit width. -/
def intParamsInRange (channel value operation safe_tx_gas base_gas gas_price nonce : Int) :
    Prop :=
  (0 ≤ channel ∧ channel < 2 ^ 256) ∧ (0 ≤ value ∧ value < 2 ^ 256) ∧
  (0 ≤ operation ∧ operation < 2 ^ 8) ∧ (0 ≤ safe_tx_gas ∧ safe_tx_gas < 2 ^ 256) ∧
  (0 ≤ base_gas ∧ base_gas < 2 ^ 256) ∧ (0 ≤ gas_price ∧ gas_price < 2 ^ 256) ∧
  (0 ≤ nonce ∧ nonce < 2 ^ 256)

instance intParamsInRangeDec
    (channel value operation safe_tx_gas base_gas gas_price nonce : Int) :
    Decidable (intParamsInRange channel value operation safe_tx_gas base_gas
      gas_price nonce) := by
  unfold intParamsInRange
  infer_instance

/-- A successful hash computation certifies that the parameter tuple
encoded successfully. -/
theorem calculate_ok_encode {ethereum_client : EthereumClient} {safe_address : Nat}
    {channel : Int} {to_addr : Nat} {value : Int} {data : List Nat}
    {operation safe_tx_gas base_gas gas_price : Int}
    {gas_token refund_receiver : Nat} {nonce : Int} {bs : List Nat}
    (h : calculate_safe_tx_hash_multichannel ethereum_client safe_address channel
      to_addr value data operation safe_tx_gas base_gas gas_price gas_token
      refund_receiver nonce = .ok bs) :
    ∃ enc, encode_abi
      [.bytes32 SAFE_TX_TYPEHASH_MULTICHANNEL, .uint256 channel, .address to_addr,
       .uint256 value, .bytes32 (if data = [] then keccak [] else keccak data),
       .uint8 operation, .uint256 safe_tx_gas, .uint256 base_gas,
       .uint256 gas_price, .address gas_token, .address refund_receiver,
       .uint256 nonce] = .ok enc := by
  unfold calculate_safe_tx_hash_multichannel at h
  cases he : encode_abi
      [.bytes32 SAFE_TX_TYPEHASH_MULTICHANNEL, .uint256 channel, .address to_addr,
       .uint256 value, .bytes32 (if data = [] then keccak [] else keccak data),
       .uint8 operation, .uint256 safe_tx_gas, .uint256 base_gas,
       .uint256 gas_price, .address gas_token, .address refund_receiver,
       .uint256 nonce] with
  | error e => rw [he, except_bind_error] at h; exact absurd h (by simp)
  | ok enc => exact ⟨enc, rfl⟩

/-- A failing tuple encoding makes the whole hash computation fail. -/
theorem calculate_encode_error {ethereum_client : EthereumClient} {safe_address : Nat}
    {channel : Int} {to_addr : Nat} {value : Int} {data : List Nat}
    {operation safe_tx_gas base_gas gas_price : Int}
    {gas_token refund_receiver : Nat} {nonce : Int}
    (h : encode_abi
      [.bytes32 SAFE_TX_TYPEHASH_MULTICHANNEL, .uint256 channel, .address to_addr,
       .uint256 value, .bytes32 (if data = [] then keccak [] else keccak data),
       .uint8 operation, .uint256 safe_tx_gas, .uint256 base_gas,
       .uint256 gas_price, .address gas_token, .address refund_receiver,
       .uint256 nonce] = .error .invalidParameter) :
    calculate_safe_tx_hash_multichannel ethereum_client safe_address channel
      to_addr value data operation safe_tx_gas base_gas gas_price gas_token
      refund_receiver nonce = .error .invalidParameter := by
  unfold calculate_safe_tx_hash_multichannel
  rw [h, except_bind_error]

/-! ## Concrete clients for closed instances -/

/-- A legacy (non-multichannel) wallet client: `channelNonces` is an unknown
selector, `nonce()` answers 7. -/
def testClient : EthereumClient where
  get_chain_id := 1
  channelNonces := fun _ => .error .functionNotFound
  nonce := .ok 7
  VERSION := .ok "1.5.0+multichannel1"

/-- A client whose `channelNonces` call fails with a transient timeout. -/
def timeoutClient : EthereumClient where
  get_chain_id := 1
  channelNonces := fun _ => .error .timeout
  nonce := .ok 7
  VERSION := .error .timeout

/-- A second client agreeing with `testClient` only on the chain id. -/
def testClient2 : EthereumClient where
  get_chain_id := 1
  channelNonces := fun _ => .error .timeout
  nonce := .error .connectionFailed
  VERSION := .error .decodeFailed

/-! ## Claim theorems -/

/-- Claim C4: `supports_multichannel` returns `false` for an absent or empty
version and otherwise `true` exactly when the lower-cased version string
contains the literal substring `"multichannel"`; the four reference examples
hold and the function is total (no error path). -/
theorem claim_C4_supports_multichannel :
    supports_multichannel none = false ∧
    supports_multichannel (some "") = false ∧
    (∀ v : String, supports_multichannel (some v) = true ↔
      ∃ l r, lowerChars v = l ++ "multichannel".data ++ r) ∧
    supports_multichannel (some "1.5.0") = false ∧
    supports_multichannel (some "1.5.0-multichannel.1") = true ∧
    supports_multichannel (some "1.5.0+MULTICHANNEL1") = true := by
  refine ⟨rfl, by decide, ?_, by decide, by decide, by decide⟩
  intro v
  rw [supports_eq_containsL]
  exact containsL_iff _ (by decide) _

/-- Witness for C4: the substring decomposition at a concrete version. -/
theorem claim_C4_supports_multichannel_witness :
    ∃ l r, lowerChars "1.5.0-multichannel.1" = l ++ "multichannel".data ++ r :=
  (claim_C4_supports_multichannel.2.2.1 "1.5.0-multichannel.1").mp (by decide)

/-- Claim C5: when `channelNonces` fails with an unknown-selector error, the
resolver returns 0 for a nonzero channel without calling `nonce()`, and for
channel 0 falls back to exactly one `nonce()` call, having called
`channelNonces` exactly once in both cases (call trace stated in full). -/
theorem claim_C5_fallback_calls (ethereum_client : EthereumClient) (channel : Int)
    (h : ethereum_client.channelNonces channel = .error .functionNotFound) :
    (channel = 0 →
      get_channel_nonce ethereum_client channel =
        (ethereum_client.nonce, [.channelNoncesCall 0, .nonceCall])) ∧
    (channel ≠ 0 →
      get_channel_nonce ethereum_client channel =
        (.ok 0, [.channelNoncesCall channel])) := by
  have hbase : get_channel_nonce ethereum_client channel =
      (if channel = 0 then
        (ethereum_client.nonce, [.channelNoncesCall channel, .nonceCall])
       else (.ok 0, [.channelNoncesCall channel])) := by
    unfold get_channel_nonce
    rw [h]
  constructor
  · intro h0; subst h0; rw [hbase, if_pos rfl]
  · intro h0; rw [hbase, if_neg h0]

/-- Witness for C5 with a concrete legacy wallet and channel 5. -/
theorem claim_C5_fallback_calls_witness :
    testClient.channelNonces 5 = .error .functionNotFound ∧
    get_channel_nonce testClient 5 = (.ok 0, [.channelNoncesCall 5]) :=
  ⟨rfl, (claim_C5_fallback_calls testClient 5 rfl).2 (by decide)⟩

/-- Claim C2 counterexample: a `channelNonces` failure that is a transient
timeout — not an unknown function selector — is still converted to the
fallback result `0` for a nonzero channel instead of being surfaced. -/
theorem claim_C2_counterexample :
    timeoutClient.channelNonces 5 = .error .timeout ∧
    RpcError.timeout ≠ RpcError.functionNotFound ∧
    (get_channel_nonce timeoutClient 5).1 = .ok 0 :=
  ⟨rfl, by decide, rfl⟩

/-- Claim C2 (amended): the resolver's fallback triggers on every failure of
the `channelNonces` call regardless of error kind — for channel 0 it returns
the outcome of `nonce()`, otherwise the constant 0; no `channelNonces`
failure of any kind is surfaced to the caller. -/
theorem claim_C2_broad_fallback (ethereum_client : EthereumClient) (channel : Int)
    (e : RpcError) (h : ethereum_client.channelNonces channel = .error e) :
    (channel = 0 →
      (get_channel_nonce ethereum_client channel).1 = ethereum_client.nonce) ∧
    (channel ≠ 0 →
      (get_channel_nonce ethereum_client channel).1 = .ok 0) := by
  have hbase : get_channel_nonce ethereum_client channel =
      (if channel = 0 then
        (ethereum_client.nonce, [.channelNoncesCall channel, .nonceCall])
       else (.ok 0, [.channelNoncesCall channel])) := by
    unfold get_channel_nonce
    rw [h]
  constructor
  · intro h0; subst h0; rw [hbase, if_pos rfl]
  · intro h0; rw [hbase, if_neg h0]

/-- Witness for the amended C2: the timeout client at channel 3. -/
theorem claim_C2_broad_fallback_witness :
    timeoutClient.channelNonces 3 = .error .timeout ∧
    (get_channel_nonce timeoutClient 3).1 = .ok 0 :=
  ⟨rfl, (claim_C2_broad_fallback timeoutClient 3 .timeout rfl).2 (by decide)⟩

/-- Claim C10: `get_safe_version` never surfaces an error: every failing
`VERSION()` call — unknown selector, timeout, connectivity or decode
failure — yields `none`, and a successful call yields the version string. -/
theorem claim_C10_version_absorbs_failures (ethereum_client : EthereumClient) :
    (∀ e : RpcError, ethereum_client.VERSION = .error e →
      get_safe_version ethereum_client = none) ∧
    (∀ v : String, ethereum_client.VERSION = .ok v →
      get_safe_version ethereum_client = some v) := by
  constructor
  · intro e h; unfold get_safe_version; rw [h]
  · intro v h; unfold get_safe_version; rw [h]

/-- Witness for C10 with a decode failure. -/
theorem claim_C10_version_absorbs_failures_witness :
    testClient2.VERSION = .error .decodeFailed ∧ get_safe_version testClient2 = none :=
  ⟨rfl, (claim_C10_version_absorbs_failures testClient2).1 .decodeFailed rfl⟩

/-- Claim C9: the hash computation is a pure function of its arguments and
the fixed constants: two clients agreeing on the chain id (the only state
the computation consults) produce identical results for identical
arguments. -/
theorem claim_C9_deterministic (c1 c2 : EthereumClient) (safe_address : Nat)
    (channel : Int) (to_addr : Nat) (value : Int) (data : List Nat)
    (operation safe_tx_gas base_gas gas_price : Int)
    (gas_token refund_receiver : Nat) (nonce : Int)
    (h : c1.get_chain_id = c2.get_chain_id) :
    calculate_safe_tx_hash_multichannel c1 safe_address channel to_addr value data
        operation safe_tx_gas base_gas gas_price gas_token refund_receiver nonce =
      calculate_safe_tx_hash_multichannel c2 safe_address channel to_addr value
        data operation safe_tx_gas base_gas gas_price gas_token refund_receiver
        nonce := by
  unfold calculate_safe_tx_hash_multichannel get_domain_separator
  rw [h]

/-- Witness for C9: two clients differing in every oracle except the chain
id give the same hash result. -/
theorem claim_C9_deterministic_witness :
    testClient.get_chain_id = testClient2.get_chain_id ∧
    calculate_safe_tx_hash_multichannel testClient 7 1 2 3 [4] 1 5 6 8 9 10 11 =
      calculate_safe_tx_hash_multichannel testClient2 7 1 2 3 [4] 1 5 6 8 9 10 11 :=
  ⟨rfl, claim_C9_deterministic testClient testClient2 7 1 2 3 [4] 1 5 6 8 9 10 11 rfl⟩

/-- Claim C1: for in-range parameters the hash is exactly
`keccak(0x19 ++ 0x01 ++ domain_separator ++ structHash)` with
`structHash = keccak(typehash_multichannel ++ channel ++ to ++ value ++
dataHash ++ operation ++ safeTxGas ++ baseGas ++ gasPrice ++ gasToken ++
refundReceiver ++ nonce)`, every field a fixed 32-byte word in that order. -/
theorem claim_C1_signing_hash_layout (ethereum_client : EthereumClient)
    (safe_address : Nat) (channel : Int) (to_addr : Nat) (value : Int)
    (data : List Nat) (operation safe_tx_gas base_gas gas_price : Int)
    (gas_token refund_receiver : Nat) (nonce : Int)
    (hch0 : 0 ≤ channel) (hch1 : channel < 2 ^ 256)
    (hto : to_addr < 2 ^ 160)
    (hv0 : 0 ≤ value) (hv1 : value < 2 ^ 256)
    (hop0 : 0 ≤ operation) (hop1 : operation < 2 ^ 8)
    (hstg0 : 0 ≤ safe_tx_gas) (hstg1 : safe_tx_gas < 2 ^ 256)
    (hbg0 : 0 ≤ base_gas) (hbg1 : base_gas < 2 ^ 256)
    (hgp0 : 0 ≤ gas_price) (hgp1 : gas_price < 2 ^ 256)
    (hgt : gas_token < 2 ^ 160) (hrr : refund_receiver < 2 ^ 160)
    (hn0 : 0 ≤ nonce) (hn1 : nonce < 2 ^ 256)
    (hcid : ethereum_client.get_chain_id < 2 ^ 256)
    (haddr : safe_address < 2 ^ 160) :
    calculate_safe_tx_hash_multichannel ethereum_client safe_address channel
        to_addr value data operation safe_tx_gas base_gas gas_price gas_token
        refund_receiver nonce =
      .ok (keccak ([0x19, 0x01] ++
        specDomainSeparator ethereum_client.get_chain_id safe_address ++
        keccak (SAFE_TX_TYPEHASH_MULTICHANNEL ++ word256 channel.toNat ++
          word256 to_addr ++ word256 value.toNat ++ keccak data ++
          word256 operation.toNat ++ word256 safe_tx_gas.toNat ++
          word256 base_gas.toNat ++ word256 gas_price.toNat ++
          word256 gas_token ++ word256 refund_receiver ++
          word256 nonce.toNat))) := by
  rw [calculate_eq_spec ethereum_client safe_address channel to_addr value data
    operation safe_tx_gas base_gas gas_price gas_token refund_receiver nonce
    hch0 hch1 hto hv0 hv1 hop0 hop1 hstg0 hstg1 hbg0 hbg1 hgp0 hgp1 hgt hrr
    hn0 hn1 hcid haddr]
  unfold specSigningHash specStructHash
  rfl

/-- Witness for C1 at concrete parameters. -/
theorem claim_C1_signing_hash_layout_witness :
    (0 : Int) ≤ 5 ∧
    calculate_safe_tx_hash_multichannel testClient 1000 5 17 3 [1, 2] 1 4 6 8 9 10 2 =
      .ok (keccak ([0x19, 0x01] ++
        specDomainSeparator testClient.get_chain_id 1000 ++
        keccak (SAFE_TX_TYPEHASH_MULTICHANNEL ++ word256 (5 : Int).toNat ++
          word256 17 ++ word256 (3 : Int).toNat ++ keccak [1, 2] ++
          word256 (1 : Int).toNat ++ word256 (4 : Int).toNat ++
          word256 (6 : Int).toNat ++ word256 (8 : Int).toNat ++
          word256 9 ++ word256 10 ++ word256 (2 : Int).toNat))) :=
  ⟨by decide,
    claim_C1_signing_hash_layout testClient 1000 5 17 3 [1, 2] 1 4 6 8 9 10 2
      (by decide) (by decide) (by decide) (by decide) (by decide) (by decide)
      (by decide) (by decide) (by decide) (by decide) (by decide) (by decide)
      (by decide) (by decide) (by decide) (by decide) (by decide) (by decide)
      (by decide)⟩

/-- Claim C3: each integer field out of its declared range makes the hash
computation fail with the `InvalidParameter` error, and a successful hash
certifies that every integer field was in range — no silent truncation. -/
theorem claim_C3_rejects_out_of_range (ethereum_client : EthereumClient)
    (safe_address : Nat) (channel : Int) (to_addr : Nat) (value : Int)
    (data : List Nat) (operation safe_tx_gas base_gas gas_price : Int)
    (gas_token refund_receiver : Nat) (nonce : Int) :
    (∀ bs, calculate_safe_tx_hash_multichannel ethereum_client safe_address
        channel to_addr value data operation safe_tx_gas base_gas gas_price
        gas_token refund_receiver nonce = .ok bs →
      intParamsInRange channel value operation safe_tx_gas base_gas gas_price
        nonce) ∧
    (¬ intParamsInRange channel value operation safe_tx_gas base_gas gas_price
        nonce →
      calculate_safe_tx_hash_multichannel ethereum_client safe_address channel
        to_addr value data operation safe_tx_gas base_gas gas_price gas_token
        refund_receiver nonce = .error .invalidParameter) := by
  constructor
  · intro bs h
    obtain ⟨enc, henc⟩ := calculate_ok_encode h
    have helem := encode_abi_ok_elem henc
    unfold intParamsInRange
    exact ⟨uint256_ok_range (helem _ (by simp)),
      uint256_ok_range (helem _ (by simp)),
      uint8_ok_range (helem _ (by simp)),
      uint256_ok_range (helem _ (by simp)),
      uint256_ok_range (helem _ (by simp)),
      uint256_ok_range (helem _ (by simp)),
      uint256_ok_range (helem _ (by simp))⟩
  · intro hnr
    by_cases h1 : 0 ≤ channel ∧ channel < 2 ^ 256
    · by_cases h2 : 0 ≤ value ∧ value < 2 ^ 256
      · by_cases h3 : 0 ≤ operation ∧ operation < 2 ^ 8
        · by_cases h4 : 0 ≤ safe_tx_gas ∧ safe_tx_gas < 2 ^ 256
          · by_cases h5 : 0 ≤ base_gas ∧ base_gas < 2 ^ 256
            · by_cases h6 : 0 ≤ gas_price ∧ gas_price < 2 ^ 256
              · by_cases h7 : 0 ≤ nonce ∧ nonce < 2 ^ 256
                · exact absurd
                    (⟨h1, h2, h3, h4, h5, h6, h7⟩ :
                      intParamsInRange channel value operation safe_tx_gas
                        base_gas gas_price nonce) hnr
                · exact calculate_encode_error
                    (encode_abi_mem_error (by simp) (encode_uint256_bad h7))
              · exact calculate_encode_error
                  (encode_abi_mem_error (by simp) (encode_uint256_bad h6))
            · exact calculate_encode_error
                (encode_abi_mem_error (by simp) (encode_uint256_bad h5))
          · exact calculate_encode_error
              (encode_abi_mem_error (by simp) (encode_uint256_bad h4))
        · exact calculate_encode_error
            (encode_abi_mem_error (by simp) (encode_uint8_bad h3))
      · exact calculate_encode_error
          (encode_abi_mem_error (by simp) (encode_uint256_bad h2))
    · exact calculate_encode_error
        (encode_abi_mem_error (by simp) (encode_uint256_bad h1))

/-- Witness for C3: a negative `value` is rejected with `InvalidParameter`. -/
theorem claim_C3_rejects_out_of_range_witness :
    ¬ intParamsInRange 0 (-1) 0 0 0 0 0 ∧
    calculate_safe_tx_hash_multichannel testClient 0 0 0 (-1) [] 0 0 0 0 0 0 0 =
      .error .invalidParameter :=
  ⟨by decide,
    (claim_C3_rejects_out_of_range testClient 0 0 0 (-1) [] 0 0 0 0 0 0 0).2
      (by decide)⟩

/-- Claim C7: the domain separator is
`keccak(typehash_domain ++ abi_encode(chainId, walletAddress))` with the
domain typehash the keccak of the literal domain string, the chain id a
32-byte big-endian word and the address right-aligned after 12 zero bytes. -/
theorem claim_C7_domain_separator (ethereum_client : EthereumClient)
    (safe_address : Nat) (hcid : ethereum_client.get_chain_id < 2 ^ 256)
    (haddr : safe_address < 2 ^ 160) :
    get_domain_separator ethereum_client safe_address =
      .ok (keccak (keccak (strBytes
          "EIP712Domain(uint256 chainId,address verifyingContract)") ++
        word256 ethereum_client.get_chain_id ++
        (List.replicate 12 0 ++ natToBytesBE 20 safe_address))) := by
  have hdomth := keccak_length
    (strBytes "EIP712Domain(uint256 chainId,address verifyingContract)")
  have hcid1 : ((ethereum_client.get_chain_id : Int)) < 2 ^ 256 := by
    exact_mod_cast hcid
  have hdomenc := encode_abi_cons_ok (encode_bytes32_ok hdomth)
    (encode_abi_cons_ok (encode_uint256_ok (Int.natCast_nonneg _) hcid1)
    (encode_abi_cons_ok (encode_address_ok haddr)
    (rfl : encode_abi [] = .ok [])))
  unfold get_domain_separator
  simp only [hdomenc, except_bind_ok, Int.toNat_natCast, List.append_assoc,
    List.append_nil]
  rw [word256_address_split haddr]

/-- Witness for C7 at chain id 1 and address 77. -/
theorem claim_C7_domain_separator_witness :
    testClient.get_chain_id < 2 ^ 256 ∧
    get_domain_separator testClient 77 =
      .ok (keccak (keccak (strBytes
          "EIP712Domain(uint256 chainId,address verifyingContract)") ++
        word256 testClient.get_chain_id ++
        (List.replicate 12 0 ++ natToBytesBE 20 77))) :=
  ⟨by decide, claim_C7_domain_separator testClient 77 (by decide) (by decide)⟩

/-- Claim C8: with empty transaction data the `dataHash` slot is the keccak
hash of the zero-length byte sequence — the field is never skipped — and
`keccak(b"")` differs from `keccak(b"\x00")`, so empty data is not
equivalent to any one-byte default. -/
theorem claim_C8_empty_data :
    (∀ (ethereum_client : EthereumClient) (safe_address : Nat) (channel : Int)
        (to_addr : Nat) (value : Int)
        (operation safe_tx_gas base_gas gas_price : Int)
        (gas_token refund_receiver : Nat) (nonce : Int),
      0 ≤ channel → channel < 2 ^ 256 → to_addr < 2 ^ 160 → 0 ≤ value →
      value < 2 ^ 256 → 0 ≤ operation → operation < 2 ^ 8 → 0 ≤ safe_tx_gas →
      safe_tx_gas < 2 ^ 256 → 0 ≤ base_gas → base_gas < 2 ^ 256 →
      0 ≤ gas_price → gas_price < 2 ^ 256 → gas_token < 2 ^ 160 →
      refund_receiver < 2 ^ 160 → 0 ≤ nonce → nonce < 2 ^ 256 →
      ethereum_client.get_chain_id < 2 ^ 256 → safe_address < 2 ^ 160 →
      calculate_safe_tx_hash_multichannel ethereum_client safe_address channel
          to_addr value [] operation safe_tx_gas base_gas gas_price gas_token
          refund_receiver nonce =
        .ok (keccak ([0x19, 0x01] ++
          specDomainSeparator ethereum_client.get_chain_id safe_address ++
          specStructHash channel.toNat to_addr value.toNat (keccak [])
            operation.toNat safe_tx_gas.toNat base_gas.toNat gas_price.toNat
            gas_token refund_receiver nonce.toNat))) ∧
    keccak [] ≠ keccak [0] := by
  constructor
  · intro ethereum_client safe_address channel to_addr value operation
      safe_tx_gas base_gas gas_price gas_token refund_receiver nonce
      hch0 hch1 hto hv0 hv1 hop0 hop1 hstg0 hstg1 hbg0 hbg1 hgp0 hgp1 hgt hrr
      hn0 hn1 hcid haddr
    exact calculate_eq_spec ethereum_client safe_address channel to_addr value
      [] operation safe_tx_gas base_gas gas_price gas_token refund_receiver
      nonce hch0 hch1 hto hv0 hv1 hop0 hop1 hstg0 hstg1 hbg0 hbg1 hgp0 hgp1
      hgt hrr hn0 hn1 hcid haddr
  · decide

/-- Witness for C8 at the all-zero transaction. -/
theorem claim_C8_empty_data_witness :
    (0 : Int) ≤ 0 ∧
    calculate_safe_tx_hash_multichannel testClient 12 0 0 0 [] 0 0 0 0 0 0 0 =
      .ok (keccak ([0x19, 0x01] ++
        specDomainSeparator testClient.get_chain_id 12 ++
        specStructHash (0 : Int).toNat 0 (0 : Int).toNat (keccak [])
          (0 : Int).toNat (0 : Int).toNat (0 : Int).toNat (0 : Int).toNat 0 0
          (0 : Int).toNat)) :=
  ⟨by decide,
    claim_C8_empty_data.1 testClient 12 0 0 0 0 0 0 0 0 0 0
      (by decide) (by decide) (by decide) (by decide) (by decide) (by decide)
      (by decide) (by decide) (by decide) (by decide) (by decide) (by decide)
      (by decide) (by decide) (by decide) (by decide) (by decide) (by decide)
      (by decide)⟩
